import Mathlib

/-!
Verification of the FIFO character driver in `src/fifodev.c`.

The driver exposes a single 4096-byte circular buffer (`struct kfifo cbuffer`)
to concurrently open producer (write) and consumer (read) sessions, guarded by
one mutual-exclusion semaphore `mtx`.  All shared state is mutated only inside
the `mtx` critical section, so each operation body is embedded as a function
from the shared state to a result and a new shared state.  Blocking inside the
home-made `cond_wait` is the single suspension point; an operation whose wait
loop guard holds is modelled as returning a `blocked` outcome after having
registered itself in the corresponding waiting counter, exactly the state the
real thread leaves behind when it suspends.  Interruption of a wait
(`down_interruptible` returning nonzero) is driven by explicit boolean
parameters.

Byte values are modelled as `Nat`; the buffer is the list of bytes currently
queued, oldest first.  `kfifo_in` copies `min(n, kfifo_avail)` bytes and
`kfifo_out` copies `min(n, kfifo_len)` bytes, which the embedding reproduces
with `List.take`/`List.drop`.  The session and waiter counters are C `int`s
and are embedded as `Int` (the code never clamps them); the two waiting-queue
semaphores are counting semaphores embedded by their permit counts.
-/

/-- `MAX_KBUF` and `MAX_CBUFFER_LEN` in `fifodev.c`: both 4096. -/
def MAX_KBUF : Nat := 4096

/-- The shared state of the driver: the kfifo contents (oldest byte first),
the producer/consumer session counts, the per-role waiting counters, and the
permit counts of the two waiting-queue semaphores `sem_prod` and `sem_cons`. -/
structure FifoState where
  cbuffer : List Nat
  prod_count : Int
  cons_count : Int
  nr_prod_waiting : Int
  nr_cons_waiting : Int
  sem_prod : Nat
  sem_cons : Nat
  deriving DecidableEq, Repr

/-- The state right after `modulo_fifo_init`: empty buffer, all counters 0,
both waiting-queue semaphores initialised to 0 permits. -/
def initState : FifoState :=
  { cbuffer := [], prod_count := 0, cons_count := 0,
    nr_prod_waiting := 0, nr_cons_waiting := 0, sem_prod := 0, sem_cons := 0 }

/-- The guarded signal pattern for the producer queue, as it appears at
`fifodev.c:72-75`, `112-115` and `158-161`:
`if (nr_prod_waiting > 0) { nr_prod_waiting--; up(&sem_prod); }`. -/
def signal_prod (st : FifoState) : FifoState :=
  if st.nr_prod_waiting > 0 then
    { st with nr_prod_waiting := st.nr_prod_waiting - 1, sem_prod := st.sem_prod + 1 }
  else st

/-- The guarded signal pattern for the consumer queue, as it appears at
`fifodev.c:86-89`, `120-123` and `196-199`. -/
def signal_cons (st : FifoState) : FifoState :=
  if st.nr_cons_waiting > 0 then
    { st with nr_cons_waiting := st.nr_cons_waiting - 1, sem_cons := st.sem_cons + 1 }
  else st

/-- `*counter = *counter - 1` inside `cond_wait` (`fifodev.c:49`), where
`counter` points at the waiting counter of the calling role. -/
def dec_wait_counter (st : FifoState) (isProd : Bool) : FifoState :=
  if isProd then { st with nr_prod_waiting := st.nr_prod_waiting - 1 }
  else { st with nr_cons_waiting := st.nr_cons_waiting - 1 }

/-- Consuming one permit of the calling role when `down_interruptible(aux)`
returns by being woken (`fifodev.c:47`). -/
def consume_permit (st : FifoState) (isProd : Bool) : FifoState :=
  if isProd then { st with sem_prod := st.sem_prod - 1 }
  else { st with sem_cons := st.sem_cons - 1 }

/-- Result of `cond_wait`: the returned value (`0` or `-EINTR = -4`), the
shared state it leaves behind, and whether the caller holds `mtx` when
control returns to it. -/
structure CWRes where
  ret : Int
  st : FifoState
  lockHeld : Bool
  deriving DecidableEq, Repr

/-- `cond_wait` (`fifodev.c:36-57`).  The caller holds `mtx` and has already
incremented its waiting counter.  The body first does `up(&mtx)` and blocks on
the role semaphore `aux`.

* `intrAux = true` models `down_interruptible(aux)` returning nonzero
  (interrupted, lines 47-52): the code runs `if (down_interruptible(&mtx));`
  - the stray semicolon discards the result - then decrements the waiting
  counter, does `up(&mtx)` and returns `-EINTR`; because of that final
  `up(&mtx)` the caller does NOT hold the lock when `-EINTR` is returned.
* otherwise the wait was satisfied by a permit; `intrMtx = true` models
  `down_interruptible(&mtx)` at line 54 being interrupted: the code returns
  `-EINTR` without the lock and without touching the counter.
* otherwise the lock is re-acquired and `0` is returned with the lock held. -/
def cond_wait (st : FifoState) (isProd : Bool) (intrAux intrMtx : Bool) : CWRes :=
  if intrAux then
    { ret := -4, st := dec_wait_counter st isProd, lockHeld := false }
  else
    let st1 := consume_permit st isProd
    if intrMtx then { ret := -4, st := st1, lockHeld := false }
    else { ret := 0, st := st1, lockHeld := true }

/-- Result of `fifoproc_open`. -/
inductive OpenRes where
  | ok
  | eintr
  | blocked
  deriving DecidableEq, Repr

/-- `fifoproc_open` (`fifodev.c:60-101`).  `consumer = true` is the
`FMODE_READ` branch.  The role count is incremented first, then the opposite
role is signalled if it has waiters; while the opposite count is `0` the
caller registers in its own waiting counter and calls `cond_wait`.  `intr`
models the wait being interrupted (`cond_wait` returning `-EINTR`, upon which
line 79/93 returns `-EINTR` directly); with `intr = false` an entered wait is
reported as `blocked`, the state holding the registered waiter. -/
def fifoproc_open (st : FifoState) (consumer : Bool) (intr : Bool) :
    OpenRes × FifoState :=
  if consumer then
    let st1 := signal_prod { st with cons_count := st.cons_count + 1 }
    if st1.prod_count = 0 then
      let st2 := { st1 with nr_cons_waiting := st1.nr_cons_waiting + 1 }
      if intr then (.eintr, (cond_wait st2 false true false).st)
      else (.blocked, st2)
    else (.ok, st1)
  else
    let st1 := signal_cons { st with prod_count := st.prod_count + 1 }
    if st1.cons_count = 0 then
      let st2 := { st1 with nr_prod_waiting := st1.nr_prod_waiting + 1 }
      if intr then (.eintr, (cond_wait st2 true true false).st)
      else (.blocked, st2)
    else (.ok, st1)

/-- `fifoproc_release` (`fifodev.c:104-130`): decrement the closing role,
signal the opposite role if it has waiters, and reset the kfifo when both
counts are 0.  Always returns 0. -/
def fifoproc_release (st : FifoState) (consumer : Bool) : Int × FifoState :=
  let st1 :=
    if consumer then signal_prod { st with cons_count := st.cons_count - 1 }
    else signal_cons { st with prod_count := st.prod_count - 1 }
  let st2 :=
    if st1.prod_count = 0 ∧ st1.cons_count = 0 then { st1 with cbuffer := [] }
    else st1
  (0, st2)

/-- Result of `fifoproc_read`: `bytes bs` is a successful return of
`bs.length` bytes copied to the user buffer; `eof` is `return 0`;
`enomem` is the `-ENOMEM` return when `copy_to_user` fails (after
`kfifo_out` already removed the bytes); `blocked` means the wait-loop guard
held and the thread suspended in `cond_wait`. -/
inductive ReadRes where
  | bytes (bs : List Nat)
  | eof
  | enomem
  | blocked
  deriving DecidableEq, Repr

/-- `fifoproc_read` (`fifodev.c:133-169`).  Under the lock: while the kfifo is
empty and producers remain, register as a consumer waiter and wait; if the
kfifo is empty (all producers gone) return 0; otherwise pop
`len = min(size, kfifo_len)` bytes with `kfifo_out`, signal a waiting
producer, release the lock and only then `copy_to_user` - `copyOk = false`
models that copy failing, which returns `-ENOMEM` although the bytes are
already removed from the kfifo. -/
def fifoproc_read (st : FifoState) (size : Nat) (copyOk : Bool) :
    ReadRes × FifoState :=
  if st.cbuffer.length = 0 ∧ st.prod_count > 0 then
    (.blocked, { st with nr_cons_waiting := st.nr_cons_waiting + 1 })
  else if st.cbuffer = [] then
    (.eof, st)
  else
    let len := if size ≥ st.cbuffer.length then st.cbuffer.length else size
    let out := st.cbuffer.take len
    let st1 := signal_prod { st with cbuffer := st.cbuffer.drop len }
    if copyOk then (.bytes out, st1) else (.enomem, st1)

/-- Result of `fifoproc_write`: `ok n` returns `n = size` bytes written;
`enomem` is the `size > MAX_KBUF` (or copy) rejection before the lock;
`epipe` is `-EPIPE`; `blocked` means the wait-loop guard held. -/
inductive WriteRes where
  | ok (n : Nat)
  | enomem
  | epipe
  | blocked
  deriving DecidableEq, Repr

/-- `fifoproc_write` (`fifodev.c:172-204`).  `size > MAX_KBUF` is rejected
with `-ENOMEM` before any shared state is touched.  Under the lock: while
`kfifo_avail < size` and consumers remain, register as a producer waiter and
wait; then `kfifo_in` enqueues `min(size, kfifo_avail)` bytes; if
`cons_count == 0` the call returns `-EPIPE` (after the enqueue); otherwise a
waiting consumer is signalled and `size` is returned. -/
def fifoproc_write (st : FifoState) (bs : List Nat) : WriteRes × FifoState :=
  if bs.length > MAX_KBUF then (.enomem, st)
  else if MAX_KBUF - st.cbuffer.length < bs.length ∧ st.cons_count > 0 then
    (.blocked, { st with nr_prod_waiting := st.nr_prod_waiting + 1 })
  else
    let st1 := { st with cbuffer := st.cbuffer ++ bs.take (MAX_KBUF - st.cbuffer.length) }
    if st1.cons_count = 0 then (.epipe, st1)
    else (.ok bs.length, signal_cons st1)

/-- One call against the driver, for reasoning about operation sequences. -/
inductive Op where
  | op_open (consumer intr : Bool)
  | op_close (consumer : Bool)
  | op_read (size : Nat) (copyOk : Bool)
  | op_write (bs : List Nat)
  deriving DecidableEq, Repr

/-- The state transition of one call (result discarded). -/
def step (st : FifoState) : Op → FifoState
  | .op_open c i => (fifoproc_open st c i).2
  | .op_close c => (fifoproc_release st c).2
  | .op_read n ok => (fifoproc_read st n ok).2
  | .op_write bs => (fifoproc_write st bs).2

/-- Run a sequence of calls from a state. -/
def run (st : FifoState) (ops : List Op) : FifoState :=
  ops.foldl step st

/-! ### General lemmas about the operations -/

theorem signal_prod_cbuffer (st : FifoState) : (signal_prod st).cbuffer = st.cbuffer := by
  unfold signal_prod; split_ifs <;> rfl

theorem signal_cons_cbuffer (st : FifoState) : (signal_cons st).cbuffer = st.cbuffer := by
  unfold signal_cons; split_ifs <;> rfl

theorem signal_prod_cons_count (st : FifoState) :
    (signal_prod st).cons_count = st.cons_count := by
  unfold signal_prod; split_ifs <;> rfl

theorem signal_cons_cons_count (st : FifoState) :
    (signal_cons st).cons_count = st.cons_count := by
  unfold signal_cons; split_ifs <;> rfl

theorem signal_prod_prod_count (st : FifoState) :
    (signal_prod st).prod_count = st.prod_count := by
  unfold signal_prod; split_ifs <;> rfl

theorem signal_cons_prod_count (st : FifoState) :
    (signal_cons st).prod_count = st.prod_count := by
  unfold signal_cons; split_ifs <;> rfl

theorem cond_wait_cbuffer (st : FifoState) (p a m : Bool) :
    (cond_wait st p a m).st.cbuffer = st.cbuffer := by
  unfold cond_wait dec_wait_counter consume_permit
  split_ifs <;> rfl

/-- `fifoproc_open` never touches the kfifo contents. -/
theorem fifoproc_open_cbuffer (st : FifoState) (c i : Bool) :
    (fifoproc_open st c i).2.cbuffer = st.cbuffer := by
  simp only [fifoproc_open]
  split_ifs <;>
    simp [cond_wait_cbuffer, signal_prod_cbuffer, signal_cons_cbuffer]

/-- `fifoproc_release` either resets the kfifo or leaves it untouched. -/
theorem fifoproc_release_cbuffer (st : FifoState) (c : Bool) :
    (fifoproc_release st c).2.cbuffer = [] ∨
    (fifoproc_release st c).2.cbuffer = st.cbuffer := by
  simp only [fifoproc_release]
  split_ifs <;>
    simp [signal_prod_cbuffer, signal_cons_cbuffer]

/-- After `fifoproc_read`, the kfifo holds exactly the old contents with the
first `min size kfifo_len` bytes removed (in the blocked and EOF branches the
kfifo was empty, so this is still the identity). -/
theorem fifoproc_read_cbuffer (st : FifoState) (n : Nat) (ok : Bool) :
    (fifoproc_read st n ok).2.cbuffer = st.cbuffer.drop (min n st.cbuffer.length) := by
  simp only [fifoproc_read]
  split_ifs with h1 h2 h3 h4 h5 <;>
    first
      | (rw [List.length_eq_zero.mp h1.1]; simp)
      | (rw [h2]; simp)
      | (simp only [signal_prod_cbuffer]; congr 1; omega)

/-- After `fifoproc_write`, the kfifo is either untouched (rejection or
blocking) or extended by `kfifo_in` with the first `min size kfifo_avail`
bytes of the payload. -/
theorem fifoproc_write_cbuffer (st : FifoState) (bs : List Nat) :
    (fifoproc_write st bs).2.cbuffer = st.cbuffer ∨
    (fifoproc_write st bs).2.cbuffer
      = st.cbuffer ++ bs.take (MAX_KBUF - st.cbuffer.length) := by
  simp only [fifoproc_write]
  split_ifs <;>
    simp [signal_cons_cbuffer]

/-! ### Claim theorems -/

/-- C1: for EVERY call to `write` - any state `st` whatsoever - a byte count
exceeding the fixed capacity 4096 fails with `-ENOMEM` (`OversizedWrite`)
before touching shared state: the whole state, in particular the buffer
length, is unchanged.  And a `write` of exactly 4096 bytes on an empty
buffer with at least one consumer open succeeds, returning 4096 and
enqueuing all the bytes. -/
theorem C1_write_size_bounds (st st' : FifoState) (big full : List Nat)
    (hbig : big.length > 4096) (hfull : full.length = 4096)
    (hemp : st'.cbuffer = []) (hcons : st'.cons_count > 0) :
    fifoproc_write st big = (.enomem, st) ∧
    (fifoproc_write st big).2.cbuffer.length = st.cbuffer.length ∧
    (fifoproc_write st' full).1 = .ok 4096 ∧
    (fifoproc_write st' full).2.cbuffer = full := by
  have h1 : fifoproc_write st big = (.enomem, st) := by
    simp only [fifoproc_write, MAX_KBUF]
    rw [if_pos hbig]
  have h2 : (fifoproc_write st' full).1 = .ok full.length ∧
      (fifoproc_write st' full).2.cbuffer = full := by
    simp only [fifoproc_write, MAX_KBUF, hemp, List.length_nil, Nat.sub_zero]
    rw [if_neg (by omega)]
    rw [if_neg (by intro hc; omega)]
    rw [if_neg (show ¬st'.cons_count = 0 by omega)]
    refine ⟨rfl, ?_⟩
    rw [signal_cons_cbuffer]
    simp only [List.nil_append]
    rw [← hfull, List.take_length]
  refine ⟨h1, by rw [h1], ?_, h2.2⟩
  rw [h2.1, hfull]

/-- Witness for C1 at concrete states: a 4097-byte write is rejected with the
state unchanged even on a non-empty buffer with no consumer open, and on an
empty buffer with one producer and one consumer open a 4096-byte write
succeeds in full. -/
theorem C1_write_size_bounds_witness :
    fifoproc_write ⟨[3, 4], 2, 0, 0, 0, 0, 0⟩ (List.replicate 4097 0)
      = (.enomem, ⟨[3, 4], 2, 0, 0, 0, 0, 0⟩) ∧
    (fifoproc_write ⟨[3, 4], 2, 0, 0, 0, 0, 0⟩ (List.replicate 4097 0)).2.cbuffer.length = 2 ∧
    (fifoproc_write ⟨[], 1, 1, 0, 0, 0, 0⟩ (List.replicate 4096 0)).1 = .ok 4096 ∧
    (fifoproc_write ⟨[], 1, 1, 0, 0, 0, 0⟩ (List.replicate 4096 0)).2.cbuffer
      = List.replicate 4096 0 := by
  have h := C1_write_size_bounds ⟨[3, 4], 2, 0, 0, 0, 0, 0⟩ ⟨[], 1, 1, 0, 0, 0, 0⟩
    (List.replicate 4097 0) (List.replicate 4096 0)
    (by rw [List.length_replicate]; omega) (List.length_replicate 4096 0)
    rfl (by norm_num)
  exact ⟨h.1, h.2.1, h.2.2.1, h.2.2.2⟩

/-- C5: `read` on an empty buffer with `prod_count = 0` skips the wait loop,
returns 0 bytes (EOF) immediately - no blocking, no error - and leaves the
state untouched. -/
theorem C5_read_eof_no_producers (st : FifoState) (size : Nat) (copyOk : Bool)
    (hemp : st.cbuffer = []) (hprod : st.prod_count = 0) :
    fifoproc_read st size copyOk = (.eof, st) := by
  simp only [fifoproc_read]
  rw [if_neg (by rw [hprod]; simp), if_pos hemp]

/-- Witness for C5: a consumer open with no producers and an empty buffer
gets EOF at once. -/
theorem C5_read_eof_no_producers_witness :
    fifoproc_read ⟨[], 0, 1, 0, 0, 0, 0⟩ 10 true = (.eof, ⟨[], 0, 1, 0, 0, 0, 0⟩) :=
  C5_read_eof_no_producers ⟨[], 0, 1, 0, 0, 0, 0⟩ 10 true rfl rfl

/-- C6: `read maxLen` on a non-empty buffer returns exactly the oldest
`min maxLen length` bytes, removes exactly those bytes from the buffer, and
the returned count satisfies `0 ≤ count ≤ maxLen`. -/
theorem C6_read_pops_oldest (st : FifoState) (size : Nat)
    (hne : st.cbuffer ≠ []) :
    (fifoproc_read st size true).1
      = .bytes (st.cbuffer.take (min size st.cbuffer.length)) ∧
    (fifoproc_read st size true).2.cbuffer
      = st.cbuffer.drop (min size st.cbuffer.length) ∧
    (st.cbuffer.take (min size st.cbuffer.length)).length
      = min size st.cbuffer.length ∧
    min size st.cbuffer.length ≤ size := by
  have hmin : (if size ≥ st.cbuffer.length then st.cbuffer.length else size)
      = min size st.cbuffer.length := by
    split_ifs <;> omega
  refine ⟨?_, fifoproc_read_cbuffer st size true, by rw [List.length_take]; omega, by omega⟩
  simp only [fifoproc_read]
  rw [if_neg (fun hc => hne (List.length_eq_zero.mp hc.1)), if_neg hne, hmin, if_pos trivial]

/-- Witness for C6: reading 2 bytes from a 3-byte buffer returns the two
oldest bytes and leaves the newest one. -/
theorem C6_read_pops_oldest_witness :
    (fifoproc_read ⟨[5, 6, 7], 1, 1, 0, 0, 0, 0⟩ 2 true).1 = .bytes [5, 6] ∧
    (fifoproc_read ⟨[5, 6, 7], 1, 1, 0, 0, 0, 0⟩ 2 true).2.cbuffer = [7] := by
  have h := C6_read_pops_oldest ⟨[5, 6, 7], 1, 1, 0, 0, 0, 0⟩ 2 (by decide)
  exact ⟨by rw [h.1]; decide, by rw [h.2.1]; decide⟩

/-- A reachable state used to refute C2 as universally stated: the kfifo is
full (4096 bytes) and the last consumer has closed while one producer remains
open (reached by open-consumer, open-producer, write 4096 bytes, close
consumer - no reset occurs because `prod_count = 1`). -/
def fullNoConsumerState : FifoState :=
  { cbuffer := List.replicate MAX_KBUF 0, prod_count := 1, cons_count := 0,
    nr_prod_waiting := 0, nr_cons_waiting := 0, sem_prod := 0, sem_cons := 0 }

/-- C2 counterexample: with `cons_count = 0` and a full buffer, a 1-byte
`write` does return `-EPIPE` without blocking, but `kfifo_in` copies
`min(size, kfifo_avail) = 0` bytes, so the payload is NOT enqueued - the
buffer is unchanged - refuting the universal claim that the bytes are first
enqueued and only then the broken-pipe error is reported. -/
theorem C2_full_buffer_counterexample :
    fullNoConsumerState.cons_count = 0 ∧
    [7].length ≤ MAX_KBUF ∧
    (fifoproc_write fullNoConsumerState [7]).1 = .epipe ∧
    (fifoproc_write fullNoConsumerState [7]).2.cbuffer
      ≠ fullNoConsumerState.cbuffer ++ [7] := by
  have hlen : fullNoConsumerState.cbuffer.length = MAX_KBUF :=
    List.length_replicate _ _
  have hw : fifoproc_write fullNoConsumerState [7]
      = (.epipe, fullNoConsumerState) := by
    simp only [fifoproc_write]
    rw [if_neg (by decide)]
    rw [if_neg (by rintro ⟨-, hgt⟩; exact absurd hgt (by decide))]
    rw [if_pos (show fullNoConsumerState.cons_count = 0 from rfl)]
    have h0 : MAX_KBUF - fullNoConsumerState.cbuffer.length = 0 := by omega
    rw [h0, List.take_zero, List.append_nil]
  refine ⟨rfl, by decide, by rw [hw], ?_⟩
  rw [hw]
  intro hcontra
  have h2 := congrArg List.length
    (show fullNoConsumerState.cbuffer = fullNoConsumerState.cbuffer ++ [7] from hcontra)
  rw [List.length_append, List.length_singleton] at h2
  omega

/-- C2 amended: a `write` of at most capacity bytes made while
`cons_count = 0` returns `-EPIPE` without blocking, and before reporting the
error it enqueues the first `min(size, capacity - length)` bytes of the
payload - the full payload exactly when it fits in the free space. -/
theorem C2_broken_pipe_partial_enqueue (st : FifoState) (bs : List Nat)
    (hsz : bs.length ≤ MAX_KBUF) (hcons : st.cons_count = 0) :
    (fifoproc_write st bs).1 = .epipe ∧
    (fifoproc_write st bs).2.cbuffer
      = st.cbuffer ++ bs.take (MAX_KBUF - st.cbuffer.length) := by
  simp only [fifoproc_write]
  rw [if_neg (by omega)]
  rw [if_neg (by rw [hcons]; rintro ⟨-, hgt⟩; omega)]
  rw [if_pos hcons]
  exact ⟨rfl, rfl⟩

/-- Witness for the amended C2: one producer, no consumers, 1 byte already
buffered; writing 2 more bytes returns `-EPIPE` with the bytes enqueued. -/
theorem C2_broken_pipe_partial_enqueue_witness :
    (fifoproc_write ⟨[9], 1, 0, 0, 0, 0, 0⟩ [1, 2]).1 = .epipe ∧
    (fifoproc_write ⟨[9], 1, 0, 0, 0, 0, 0⟩ [1, 2]).2.cbuffer = [9, 1, 2] := by
  have h := C2_broken_pipe_partial_enqueue ⟨[9], 1, 0, 0, 0, 0, 0⟩ [1, 2]
    (by simp [MAX_KBUF]) rfl
  exact ⟨h.1, by rw [h.2]; rfl⟩

/-- C3: refuted on the code (the spec flags this very defect in §9).  When
`down_interruptible(aux)` is interrupted, `cond_wait` decrements the waiting
counter but then executes `up(&mtx)` and returns `-EINTR` with the lock NOT
held; when instead the re-acquisition `down_interruptible(&mtx)` at line 54
is interrupted, `cond_wait` returns `-EINTR` with the lock not held and
without decrementing the counter.  Both cancellation exits therefore violate
the claim that the lock is held on every return from the wait.  The concrete
state is a consumer-side waiter with `nr_cons_waiting = 1`. -/
theorem C3_cond_wait_cancel_drops_lock :
    (cond_wait ⟨[], 1, 1, 0, 1, 0, 0⟩ false true false).ret = -4 ∧
    (cond_wait ⟨[], 1, 1, 0, 1, 0, 0⟩ false true false).lockHeld = false ∧
    (cond_wait ⟨[], 1, 1, 0, 1, 0, 0⟩ false true false).st.nr_cons_waiting = 0 ∧
    (cond_wait ⟨[], 1, 1, 0, 1, 0, 0⟩ false false true).ret = -4 ∧
    (cond_wait ⟨[], 1, 1, 0, 1, 0, 0⟩ false false true).lockHeld = false ∧
    (cond_wait ⟨[], 1, 1, 0, 1, 0, 0⟩ false false true).st.nr_cons_waiting = 1 := by
  decide

/-- C4: refuted on the code.  A consumer blocked in `open` (entered with
`prod_count = 0`) that is cancelled gets `-EINTR` back, but `cons_count` has
been incremented at line 68 and is never rolled back: from the initial state
it ends at 1, not at the pre-call value 0 that the claim requires. -/
theorem C4_open_cancel_retains_increment :
    initState.cons_count = 0 ∧
    (fifoproc_open initState true true).1 = .eintr ∧
    (fifoproc_open initState true true).2.cons_count = 1 := by
  decide

/-- C10: in `read`, `kfifo_out` removes the popped bytes and the lock is
released before `copy_to_user` runs; if that copy fails the call returns
`-ENOMEM` but the bytes are already gone from the buffer (and, for a positive
request, the buffer really shrank) - the pop is not undone on the boundary
copy failure. -/
theorem C10_copy_fail_loses_popped_bytes (st : FifoState) (size : Nat)
    (hne : st.cbuffer ≠ []) :
    (fifoproc_read st size false).1 = .enomem ∧
    (fifoproc_read st size false).2.cbuffer
      = st.cbuffer.drop (min size st.cbuffer.length) ∧
    (0 < size → (fifoproc_read st size false).2.cbuffer.length < st.cbuffer.length) := by
  refine ⟨?_, fifoproc_read_cbuffer st size false, ?_⟩
  · simp only [fifoproc_read]
    rw [if_neg (fun hc => hne (List.length_eq_zero.mp hc.1)), if_neg hne]
    simp
  · intro hpos
    rw [fifoproc_read_cbuffer st size false, List.length_drop]
    have : st.cbuffer.length ≠ 0 := fun h => hne (List.length_eq_zero.mp h)
    omega

/-- Witness for C10: a 2-byte buffer, a 1-byte read whose user copy fails:
`-ENOMEM` is returned yet the oldest byte is gone. -/
theorem C10_copy_fail_loses_popped_bytes_witness :
    (fifoproc_read ⟨[5, 6], 1, 1, 0, 0, 0, 0⟩ 1 false).1 = .enomem ∧
    (fifoproc_read ⟨[5, 6], 1, 1, 0, 0, 0, 0⟩ 1 false).2.cbuffer = [6] ∧
    (fifoproc_read ⟨[5, 6], 1, 1, 0, 0, 0, 0⟩ 1 false).2.cbuffer.length < 2 := by
  have h := C10_copy_fail_loses_popped_bytes ⟨[5, 6], 1, 1, 0, 0, 0, 0⟩ 1 (by decide)
  exact ⟨h.1, by rw [h.2.1]; decide, by rw [h.2.1]; decide⟩

/-- The drain scenario of the spec (§8 scenario 5): a consumer opens (and
suspends waiting for a partner), a producer opens, the producer writes 10
bytes which stay unread, then the consumer and the producer both close. -/
def drainOps : List Op :=
  [.op_open true false, .op_open false false, .op_write (List.replicate 10 7),
   .op_close true, .op_close false]

/-- The drain scenario followed by a fresh consumer and producer opening and
the producer closing again, leaving one consumer alone on an empty pipe. -/
def reopenOps : List Op :=
  drainOps ++ [.op_open true false, .op_open false false, .op_close false]

/-- C7: the kfifo is reset exactly when a `release` leaves both session
counts at 0 (and is left untouched by a `release` that does not); no other
operation ever discards buffered bytes - `open` leaves the buffer alone,
`read` removes only the `min size length` oldest bytes it returns, and
`write` only appends.  Concretely, after the drain scenario the 10 unread
bytes are gone and a freshly opened consumer reads EOF instead of them. -/
theorem C7_reset_exactly_on_drain :
    (∀ (st : FifoState) (c : Bool),
      (((fifoproc_release st c).2.prod_count = 0 ∧
          (fifoproc_release st c).2.cons_count = 0) →
        (fifoproc_release st c).2.cbuffer = []) ∧
      (¬((fifoproc_release st c).2.prod_count = 0 ∧
          (fifoproc_release st c).2.cons_count = 0) →
        (fifoproc_release st c).2.cbuffer = st.cbuffer)) ∧
    (∀ (st : FifoState) (c i : Bool), (fifoproc_open st c i).2.cbuffer = st.cbuffer) ∧
    (∀ (st : FifoState) (n : Nat) (ok : Bool),
      (fifoproc_read st n ok).2.cbuffer = st.cbuffer.drop (min n st.cbuffer.length)) ∧
    (∀ (st : FifoState) (bs : List Nat), ∃ k,
      (fifoproc_write st bs).2.cbuffer = st.cbuffer ++ bs.take k) ∧
    ((run initState (drainOps.take 3)).cbuffer = List.replicate 10 7 ∧
     (run initState drainOps).cbuffer = [] ∧
     (fifoproc_read (run initState reopenOps) 100 true).1 = .eof) := by
  refine ⟨?_, fifoproc_open_cbuffer, fifoproc_read_cbuffer, ?_,
    by decide, by decide, by decide⟩
  · intro st c
    simp only [fifoproc_release]
    split_ifs with hc h h' <;>
      first
        | exact ⟨fun _ => rfl, fun hn => absurd (by assumption) hn⟩
        | exact ⟨fun hz => absurd hz (by assumption),
            fun _ => by rw [signal_prod_cbuffer]⟩
        | exact ⟨fun hz => absurd hz (by assumption),
            fun _ => by rw [signal_cons_cbuffer]⟩
  · intro st bs
    rcases fifoproc_write_cbuffer st bs with h | h
    · exact ⟨0, by rw [h, List.take_zero, List.append_nil]⟩
    · exact ⟨MAX_KBUF - st.cbuffer.length, h⟩

/-- Witness for C7: the last producer closing with 10 unread bytes buffered
and no consumers left resets the buffer to empty. -/
theorem C7_reset_exactly_on_drain_witness :
    (fifoproc_release ⟨List.replicate 10 7, 1, 0, 0, 0, 0, 0⟩ false).2.cbuffer = [] :=
  (C7_reset_exactly_on_drain.1 ⟨List.replicate 10 7, 1, 0, 0, 0, 0, 0⟩ false).1
    (by decide)

/-- The guarded-signal property claimed for every transition: each role
semaphore is either untouched, or posted exactly once while the waiting
counter of that role was strictly positive, the post coming with a
simultaneous decrement of that counter. -/
def GuardedPosts (pre post : FifoState) : Prop :=
  (post.sem_prod = pre.sem_prod ∨
    (pre.nr_prod_waiting > 0 ∧ post.sem_prod = pre.sem_prod + 1 ∧
      post.nr_prod_waiting = pre.nr_prod_waiting - 1)) ∧
  (post.sem_cons = pre.sem_cons ∨
    (pre.nr_cons_waiting > 0 ∧ post.sem_cons = pre.sem_cons + 1 ∧
      post.nr_cons_waiting = pre.nr_cons_waiting - 1))

/-- C8: every operation of the driver posts a role semaphore only through
the guarded pattern `if (nr_X_waiting > 0) { nr_X_waiting--; up(&sem_X); }`:
across any single `open`, `release`, `read` or `write` transition, each role
semaphore is posted at most once, only when that role had a registered
waiter, and together with the decrement of its waiting counter - never when
nobody is registered as waiting. -/
theorem C8_semaphore_posts_guarded (st : FifoState) (o : Op) :
    GuardedPosts st (step st o) := by
  cases o <;>
    simp only [GuardedPosts, step, fifoproc_open, fifoproc_release, fifoproc_read,
      fifoproc_write, cond_wait, dec_wait_counter, consume_permit,
      signal_prod, signal_cons] <;>
    split_ifs <;>
    simp_all

/-- One step keeps the kfifo length within capacity. -/
theorem step_length_le (st : FifoState) (o : Op) (h : st.cbuffer.length ≤ MAX_KBUF) :
    (step st o).cbuffer.length ≤ MAX_KBUF := by
  cases o with
  | op_open c i =>
      simp only [step, fifoproc_open_cbuffer]; exact h
  | op_close c =>
      rcases fifoproc_release_cbuffer st c with hr | hr <;>
        simp only [step, hr]
      · simp
      · exact h
  | op_read n ok =>
      simp only [step, fifoproc_read_cbuffer, List.length_drop]; omega
  | op_write bs =>
      rcases fifoproc_write_cbuffer st bs with hw | hw <;>
        simp only [step, hw]
      · exact h
      · rw [List.length_append, List.length_take]; omega

/-- Any run from a within-capacity state stays within capacity. -/
theorem run_length_le (ops : List Op) (st : FifoState)
    (h : st.cbuffer.length ≤ MAX_KBUF) :
    (run st ops).cbuffer.length ≤ MAX_KBUF := by
  induction ops generalizing st with
  | nil => exact h
  | cons o rest ih => exact ih (step st o) (step_length_le st o h)

/-- C9: for every sequence of open/close/read/write calls starting from the
initial state, the buffer length satisfies `0 ≤ length ≤ 4096` after every
operation (the bound holds at every prefix, since `ops` ranges over all
sequences). -/
theorem C9_length_within_capacity (ops : List Op) :
    0 ≤ (run initState ops).cbuffer.length ∧
    (run initState ops).cbuffer.length ≤ MAX_KBUF :=
  ⟨Nat.zero_le _, run_length_le ops initState (by decide)⟩
